import Mathlib

/-!
Verification of the message protocol and framing layer of `pg_fusion`
(`src/protocol.rs`): the 6-byte header codec, the per-packet payload
codecs built on the MessagePack primitives of the `rmp` crate, the
deferred-length writer pattern, and the notify step.

The embedding is byte-level: a slot's data area is a fixed-capacity byte
buffer, a `SlotStream` is that buffer together with a cursor, and every
codec function is a state-passing function that either succeeds or fails
with a `FusionError`, preserving the (possibly partially written) buffer
on failure exactly as the Rust `&mut SlotStream` does.
-/

set_option autoImplicit false

namespace Protocol

/-- Error type of the protocol layer, after `crate::error::FusionError`
(`Deserialize`, `PayloadTooLarge`) together with the error classes that
the surrounding `anyhow::Result` plumbing can carry: integer-width
conversion failures (`std::num::TryFromIntError`), MessagePack marker
mismatches, and out-of-bounds stream access on the fixed-size slot. -/
inductive FusionError where
  | deserialize (field : String) (value : Nat)
  | payloadTooLarge (size : Nat)
  | intConversion (value : Nat)
  | markerMismatch (marker : Nat)
  | outOfBounds
  | assertFailure
  | catalogLookup (oid : Nat)
  | unsupportedType (oid : Nat)
deriving DecidableEq, Repr

/-- Direction tag of a message, after `protocol.rs` lines 17-23:
`ToWorker = 0`, `ToBackend = 1`. -/
inductive Direction where
  | ToWorker
  | ToBackend
deriving DecidableEq, Repr

/-- Discriminant of a `Direction`, the `repr(u8)` value. -/
def Direction.toU8 : Direction → Nat
  | .ToWorker => 0
  | .ToBackend => 1

/-- `TryFrom<u8> for Direction` (`protocol.rs` lines 25-39): bytes 0 and 1
map to the two variants, any other byte fails with a `Deserialize` error
naming the `direction` field and the bad value.  The source asserts
`value < 128`, which always holds on the decode path because `read_pfix`
only returns positive-fixint bytes. -/
def Direction.tryFrom (value : Nat) : Except FusionError Direction :=
  if value = 0 then .ok .ToWorker
  else if value = 1 then .ok .ToBackend
  else .error (.deserialize "direction" value)

/-- Packet kind, after `protocol.rs` lines 41-50:
`Ack = 0`, `Bind = 1`, `Failure = 2`, `Metadata = 3`, `Parse = 4`. -/
inductive Packet where
  | Ack
  | Bind
  | Failure
  | Metadata
  | Parse
deriving DecidableEq, Repr

/-- Discriminant of a `Packet`, the `repr(u8)` value. -/
def Packet.toU8 : Packet → Nat
  | .Ack => 0
  | .Bind => 1
  | .Failure => 2
  | .Metadata => 3
  | .Parse => 4

/-- `TryFrom<u8> for Packet` (`protocol.rs` lines 52-66). -/
def Packet.tryFrom (value : Nat) : Except FusionError Packet :=
  if value = 0 then .ok .Ack
  else if value = 1 then .ok .Bind
  else if value = 2 then .ok .Failure
  else if value = 3 then .ok .Metadata
  else if value = 4 then .ok .Parse
  else .error (.deserialize "packet" value)

/-- Continuation flag, after `protocol.rs` lines 68-74:
`More = 0`, `Last = 1` (the `Default` is `Last`). -/
inductive Flag where
  | More
  | Last
deriving DecidableEq, Repr

/-- Discriminant of a `Flag`, the `repr(u8)` value. -/
def Flag.toU8 : Flag → Nat
  | .More => 0
  | .Last => 1

/-- `TryFrom<u8> for Flag` (`protocol.rs` lines 76-87). -/
def Flag.tryFrom (value : Nat) : Except FusionError Flag :=
  if value = 0 then .ok .More
  else if value = 1 then .ok .Last
  else .error (.deserialize "flag" value)

/-- Message header (`protocol.rs` lines 89-95).  `length` is a `u16` in
the source; the embedding keeps it as a `Nat` and the `u16` range shows
up explicitly where the source casts or converts. -/
structure Header where
  direction : Direction
  packet : Packet
  flag : Flag
  length : Nat
deriving DecidableEq, Repr

/-- `Header::default()`: every field is the Rust `Default` of its type,
i.e. `ToWorker`, `Ack`, `Last` (the `#[default]` variant) and length 0. -/
def Header.default : Header := ⟨.ToWorker, .Ack, .Last, 0⟩

/-- Modelled from the spec: `crate::ipc::DATA_SIZE`, the fixed capacity in
bytes of a slot's data area (`ipc.rs` is not under `src/`).  The spec
describes the slot as a fixed-capacity shared buffer of a few kilobytes;
the unit tests build slots from 8204-byte regions.  The concrete value
only matters for the boundary claims; 8192 is used throughout. -/
def DATA_SIZE : Nat := 8192

/-- `Header::estimate_size()` (`protocol.rs` lines 98-101):
direction (1) + packet (1) + flag (1) + length (3, the MessagePack `u16`
marker plus two payload bytes). -/
def Header.estimate_size : Nat := 1 + 1 + 1 + 3

/-- `Header::payload_max_size()` (`protocol.rs` lines 103-105). -/
def Header.payload_max_size : Nat := DATA_SIZE - Header.estimate_size

/-- Modelled from the spec: the slot cursor of `crate::ipc::SlotStream`
(`ipc.rs` is not under `src/`).  A fixed-capacity byte buffer (`cap`
bytes, addressed by the function `buf`) with an absolute cursor
position.  The spec gives it `position`, `reset`, `look_ahead(n)`,
`rewind(n)` (an advance-only seek) and `write_bytes`, all bounded by the
fixed capacity. -/
structure SlotStream where
  cap : Nat
  buf : Nat → Nat
  pos : Nat

/-- Result of a protocol step: success or failure, in both cases
carrying the stream state, because the Rust functions mutate the stream
through `&mut` and a failed step keeps whatever it already wrote. -/
inductive PRes (α : Type) where
  | ok (a : α) (s : SlotStream)
  | err (e : FusionError) (s : SlotStream)

/-- Value projection of a `PRes`. -/
def PRes.val? {α : Type} : PRes α → Option α
  | .ok a _ => some a
  | .err _ _ => none

/-- Error projection of a `PRes`. -/
def PRes.err? {α : Type} : PRes α → Option FusionError
  | .ok _ _ => none
  | .err e _ => some e

/-- Success test of a `PRes`. -/
def PRes.isOk {α : Type} : PRes α → Bool
  | .ok _ _ => true
  | .err _ _ => false

/-- Final stream state of a step, whether it succeeded or failed — the
Rust stream is mutated in place, so the state after a failed call is
observable to the caller. -/
def PRes.state {α : Type} : PRes α → SlotStream
  | .ok _ s => s
  | .err _ s => s

/-- State-passing protocol computation over a `SlotStream`. -/
def PM (α : Type) : Type := SlotStream → PRes α

/-- Return for `PM`. -/
def PM.pure {α : Type} (a : α) : PM α := fun s => .ok a s

/-- Sequencing for `PM`: errors short-circuit but keep the state reached
so far, like `?` on a `&mut` stream in the source. -/
def PM.bind {α β : Type} (x : PM α) (f : α → PM β) : PM β := fun s =>
  match x s with
  | .ok a s' => f a s'
  | .err e s' => .err e s'

instance : Monad PM where
  pure := PM.pure
  bind := PM.bind

/-- Failing computation (`return Err(..)` / `?` on an `Err`). -/
def throwE {α : Type} (e : FusionError) : PM α := fun s => .err e s

/-- Lifting a pure `Except` (such as a `TryFrom` conversion) into `PM`. -/
def liftE {α : Type} (x : Except FusionError α) : PM α := fun s =>
  match x with
  | .ok a => .ok a s
  | .error e => .err e s

/-- `stream.position()`. -/
def getPos : PM Nat := fun s =>
  match s with
  | ⟨cap, buf, pos⟩ => .ok pos ⟨cap, buf, pos⟩

/-- `stream.reset()`: move the cursor back to the start. -/
def reset : PM Unit := fun s =>
  match s with
  | ⟨cap, buf, _⟩ => .ok () ⟨cap, buf, 0⟩

/-- Overwrite `bs.length` bytes of `buf` starting at `p`. -/
def writeAt (buf : Nat → Nat) (p : Nat) (bs : List Nat) : Nat → Nat :=
  fun i => if p ≤ i ∧ i < p + bs.length then bs.getD (i - p) 0 else buf i

/-- `stream.write_bytes(bs)`: fails if the write would run past the
fixed capacity, otherwise overwrites at the cursor and advances it. -/
def write_bytes (bs : List Nat) : PM Unit := fun s =>
  match s with
  | ⟨cap, buf, pos⟩ =>
    if pos + bs.length ≤ cap then
      .ok () ⟨cap, writeAt buf pos bs, pos + bs.length⟩
    else .err .outOfBounds ⟨cap, buf, pos⟩

/-- Read one byte at the cursor and advance. -/
def readByte : PM Nat := fun s =>
  match s with
  | ⟨cap, buf, pos⟩ =>
    if pos < cap then .ok (buf pos) ⟨cap, buf, pos + 1⟩
    else .err .outOfBounds ⟨cap, buf, pos⟩

/-- The `n` bytes of `buf` starting at position `p`, as a list. -/
def bufSlice (buf : Nat → Nat) (p n : Nat) : List Nat :=
  (List.range n).map (fun i => buf (p + i))

/-- `stream.look_ahead(n)`: peek `n` bytes at the cursor without
advancing it. -/
def look_ahead (n : Nat) : PM (List Nat) := fun s =>
  match s with
  | ⟨cap, buf, pos⟩ =>
    if pos + n ≤ cap then .ok (bufSlice buf pos n) ⟨cap, buf, pos⟩
    else .err .outOfBounds ⟨cap, buf, pos⟩

/-- `stream.rewind(n)`: advance the cursor `n` bytes without reading
(despite the name it moves forward), bounded by the capacity. -/
def rewind (n : Nat) : PM Unit := fun s =>
  match s with
  | ⟨cap, buf, pos⟩ =>
    if pos + n ≤ cap then .ok () ⟨cap, buf, pos + n⟩
    else .err .outOfBounds ⟨cap, buf, pos⟩

/-- A slot stream over a zero-initialised data area of `cap` bytes with
the cursor at the start. -/
def freshStream (cap : Nat) : SlotStream := ⟨cap, fun _ => 0, 0⟩

/-- `u16::try_from` on a `usize`: fails on values that do not fit 16
bits, never truncates. -/
def u16_try_from (n : Nat) : Except FusionError Nat :=
  if n < 65536 then .ok n else .error (.intConversion n)

/-- `u32::try_from` on a `usize`: fails on values that do not fit 32
bits, never truncates. -/
def u32_try_from (n : Nat) : Except FusionError Nat :=
  if n < 4294967296 then .ok n else .error (.intConversion n)

/-! MessagePack primitives of the `rmp` crate, as used by `protocol.rs`.
Markers follow the MessagePack specification: positive fixint (one byte
below 0x80), `u16` = 0xcd, `u32` = 0xce, fixarray = 0x90+len /
array16 = 0xdc / array32 = 0xdd, bin8/16/32 = 0xc4/0xc5/0xc6,
fixstr = 0xa0+len / str8/16/32 = 0xd9/0xda/0xdb, false/true = 0xc2/0xc3.
Multi-byte integers are big-endian.  The `rmp` typed readers are strict:
they fail on any marker other than the expected one. -/

/-- `rmp::encode::write_pfix`: a positive-fixint byte (value < 128). -/
def write_pfix (v : Nat) : PM Unit :=
  if v < 128 then write_bytes [v] else throwE (.markerMismatch v)

/-- `rmp::decode::read_pfix`: read one byte, which must be a positive
fixint (< 0x80). -/
def read_pfix : PM Nat := do
  let b ← readByte
  if b < 128 then pure b else throwE (.markerMismatch b)

/-- Big-endian bytes of a 16-bit value after the `u16` marker. -/
def u16Bytes (v : Nat) : List Nat := [0xcd, v / 256 % 256, v % 256]

/-- `rmp::encode::write_u16`. -/
def write_u16 (v : Nat) : PM Unit := write_bytes (u16Bytes v)

/-- `rmp::decode::read_u16` (strict: the marker must be exactly 0xcd). -/
def read_u16 : PM Nat := do
  let m ← readByte
  if m = 0xcd then do
    let hi ← readByte
    let lo ← readByte
    pure (hi * 256 + lo)
  else throwE (.markerMismatch m)

/-- Big-endian bytes of a 32-bit value after the `u32` marker. -/
def u32Bytes (v : Nat) : List Nat :=
  [0xce, v / 16777216 % 256, v / 65536 % 256, v / 256 % 256, v % 256]

/-- `rmp::encode::write_u32`. -/
def write_u32 (v : Nat) : PM Unit := write_bytes (u32Bytes v)

/-- `rmp::encode::write_u8` (marker 0xcc plus one byte). -/
def write_u8 (v : Nat) : PM Unit := write_bytes [0xcc, v % 256]

/-- `rmp::encode::write_bool` (single marker byte). -/
def write_bool (b : Bool) : PM Unit :=
  write_bytes [if b then 0xc3 else 0xc2]

/-- Marker bytes of an array-length header. -/
def arrayLenBytes (n : Nat) : List Nat :=
  if n < 16 then [0x90 + n]
  else if n < 65536 then [0xdc, n / 256 % 256, n % 256]
  else [0xdd, n / 16777216 % 256, n / 65536 % 256, n / 256 % 256, n % 256]

/-- `rmp::encode::write_array_len`. -/
def write_array_len (n : Nat) : PM Unit := write_bytes (arrayLenBytes n)

/-- `rmp::decode::read_array_len`. -/
def read_array_len : PM Nat := do
  let m ← readByte
  if 0x90 ≤ m ∧ m ≤ 0x9f then pure (m - 0x90)
  else if m = 0xdc then do
    let hi ← readByte
    let lo ← readByte
    pure (hi * 256 + lo)
  else if m = 0xdd then do
    let b3 ← readByte
    let b2 ← readByte
    let b1 ← readByte
    let b0 ← readByte
    pure (((b3 * 256 + b2) * 256 + b1) * 256 + b0)
  else throwE (.markerMismatch m)

/-- Marker bytes of a binary-blob-length header. -/
def binLenBytes (n : Nat) : List Nat :=
  if n < 256 then [0xc4, n]
  else if n < 65536 then [0xc5, n / 256 % 256, n % 256]
  else [0xc6, n / 16777216 % 256, n / 65536 % 256, n / 256 % 256, n % 256]

/-- `rmp::encode::write_bin_len`. -/
def write_bin_len (n : Nat) : PM Unit := write_bytes (binLenBytes n)

/-- `rmp::decode::read_bin_len`. -/
def read_bin_len : PM Nat := do
  let m ← readByte
  if m = 0xc4 then readByte
  else if m = 0xc5 then do
    let hi ← readByte
    let lo ← readByte
    pure (hi * 256 + lo)
  else if m = 0xc6 then do
    let b3 ← readByte
    let b2 ← readByte
    let b1 ← readByte
    let b0 ← readByte
    pure (((b3 * 256 + b2) * 256 + b1) * 256 + b0)
  else throwE (.markerMismatch m)

/-- Marker bytes of a string-length header. -/
def strLenBytes (n : Nat) : List Nat :=
  if n < 32 then [0xa0 + n]
  else if n < 256 then [0xd9, n]
  else if n < 65536 then [0xda, n / 256 % 256, n % 256]
  else [0xdb, n / 16777216 % 256, n / 65536 % 256, n / 256 % 256, n % 256]

/-- Number of bytes of the string-length header for a string of `n`
bytes. -/
def strLenSize (n : Nat) : Nat :=
  if n < 32 then 1 else if n < 256 then 2 else if n < 65536 then 3 else 5

/-- `rmp::encode::write_str`: the length header followed by the string
bytes.  Strings are modelled as their UTF-8 byte sequences. -/
def write_str (q : List Nat) : PM Unit := do
  write_bytes (strLenBytes q.length)
  write_bytes q

/-- `rmp::decode::read_str_len`. -/
def read_str_len : PM Nat := do
  let m ← readByte
  if 0xa0 ≤ m ∧ m ≤ 0xbf then pure (m - 0xa0)
  else if m = 0xd9 then readByte
  else if m = 0xda then do
    let hi ← readByte
    let lo ← readByte
    pure (hi * 256 + lo)
  else if m = 0xdb then do
    let b3 ← readByte
    let b2 ← readByte
    let b1 ← readByte
    let b0 ← readByte
    pure (((b3 * 256 + b2) * 256 + b1) * 256 + b0)
  else throwE (.markerMismatch m)

/-! Header codec (`protocol.rs` lines 120-142). -/

/-- The six bytes of an encoded header: three positive-fixint tag bytes
followed by the MessagePack `u16` length. -/
def headerBytes (h : Header) : List Nat :=
  [h.direction.toU8, h.packet.toU8, h.flag.toU8] ++ u16Bytes h.length

/-- `consume_header` (`protocol.rs` lines 122-134): requires the cursor
at position 0 (an `assert_eq!` in the source, modelled as a failure),
reads and validates the three tag bytes, then the `u16` length. -/
def consume_header : PM Header := fun s =>
  if s.pos = 0 then
    (do
      let d ← read_pfix
      let direction ← liftE (Direction.tryFrom d)
      let p ← read_pfix
      let packet ← liftE (Packet.tryFrom p)
      let f ← read_pfix
      let flag ← liftE (Flag.tryFrom f)
      let length ← read_u16
      pure (⟨direction, packet, flag, length⟩ : Header)) s
  else .err .assertFailure s

/-- `write_header` (`protocol.rs` lines 136-142): the three tag bytes as
positive fixints, then the length as a MessagePack `u16`. -/
def write_header (h : Header) : PM Unit := do
  write_pfix h.direction.toU8
  write_pfix h.packet.toU8
  write_pfix h.flag.toU8
  write_u16 h.length

/-! Notify step (`protocol.rs` lines 108-118).  The process-identity
collaborators (`worker_id()` and the slot directory `Bus`) live outside
`src/`; they are modelled as an injected context, as the spec suggests. -/

/-- Modelled from the spec: the process-identity context consumed by
`signal` — the well-known worker process id (`crate::worker::worker_id`)
and the slot directory mapping a slot number to its registered owner
process (`Bus::new().slot(id).owner()`), both outside `src/`. -/
structure SignalCtx where
  workerId : Nat
  owner : Nat → Nat

/-- `signal(slot_id, direction)` (`protocol.rs` lines 108-118): wake the
worker for `ToWorker`, the slot's registered owner for `ToBackend`.
Returns the process id passed to `ProcSendSignal`. -/
def signal (ctx : SignalCtx) (slot_id : Nat) (direction : Direction) : Nat :=
  match direction with
  | .ToWorker => ctx.workerId
  | .ToBackend => ctx.owner slot_id

/-! Parse packet (`protocol.rs` lines 144-182). -/

/-- `read_query` (`protocol.rs` lines 151-156): read the string length,
then peek (without advancing) at the string bytes, returning them with
the length.  The source additionally checks that the bytes are valid
UTF-8 before returning the borrowed `&str`; the byte-level embedding
returns the byte slice itself. -/
def read_query : PM (List Nat × Nat) := do
  let len ← read_str_len
  let buf ← look_ahead len
  pure (buf, len)

/-- `prepare_query` (`protocol.rs` lines 158-174): computes the payload
length as `1 + 1 + query.len()` (header marker plus one length byte plus
the string bytes), rejects it with `PayloadTooLarge(query.len())` when
it exceeds `payload_max_size`, then writes the header (the computed
length cast `as u16`, hence the explicit `% 65536`) and the string. -/
def prepare_query (query : List Nat) : PM Unit := do
  reset
  let length := 1 + 1 + query.length
  if Header.payload_max_size < length then
    throwE (.payloadTooLarge query.length)
  else do
    write_header ⟨.ToWorker, .Parse, .Last, length % 65536⟩
    write_str query

/-- `send_query` (`protocol.rs` lines 176-182): write the framed query,
release the slot, signal `ToWorker`.  The result records the direction
passed to `signal` and the process id it wakes. -/
def send_query (ctx : SignalCtx) (slot_id : Nat) (query : List Nat) :
    PM (Direction × Nat) := do
  prepare_query query
  pure (Direction.ToWorker, signal ctx slot_id Direction.ToWorker)

/-! Bind packet (`protocol.rs` lines 184-231).  The scalar-value system
(`crate::data_type`, not under `src/`) is modelled from the spec. -/

/-- Modelled from the spec: the scalar value produced by the external
conversion `convert(raw_value, type_id, is_null) → ScalarValue`
(`datafusion::scalar::ScalarValue`).  Only the 32-bit integer variant is
needed by the claims. -/
inductive ScalarValue where
  | Int32 (v : Option Int)
deriving DecidableEq, Repr

/-- Modelled from the spec: `pgrx::pg_sys::ParamExternData`, a raw
parameter as the host hands it over — a raw datum, a type oid, a null
flag and the (unused here) flag word. -/
structure ParamExternData where
  value : Int
  ptype : Nat
  isnull : Bool
  pflags : Nat
deriving DecidableEq, Repr

/-- Oid of the 32-bit integer type (`pg_sys::INT4OID`). -/
def INT4OID : Nat := 23

/-- Oid of the text type (`pg_sys::TEXTOID`). -/
def TEXTOID : Nat := 25

/-- Modelled from the spec: `crate::data_type::datum_to_scalar`
(`data_type.rs` is not under `src/`), the external conversion
`convert(raw_value, type_id, is_null) → ScalarValue`.  For an `int4`
parameter it yields `Int32(Some v)`, or `Int32(None)` when the null
flag is set; other type oids fail. -/
def datum_to_scalar (value : Int) (ptype : Nat) (isnull : Bool) :
    Except FusionError ScalarValue :=
  if ptype = INT4OID then
    .ok (.Int32 (if isnull then none else some value))
  else .error (.unsupportedType ptype)

/-- Modelled from the spec: `crate::data_type::write_scalar_value`, the
external scalar codec (`encode(ScalarValue, cursor)`).  `Int32(None)`
is the MessagePack nil byte 0xc0; `Int32(Some v)` is the `i32` marker
0xd2 followed by the four big-endian two's-complement bytes. -/
def write_scalar_value (v : ScalarValue) : PM Unit :=
  match v with
  | .Int32 none => write_bytes [0xc0]
  | .Int32 (some v) =>
      let u := (v % 4294967296).toNat
      write_bytes [0xd2, u / 16777216 % 256, u / 65536 % 256,
                   u / 256 % 256, u % 256]

/-- Modelled from the spec: `crate::data_type::read_scalar_value`, the
inverse external scalar codec (`decode(cursor) → ScalarValue`). -/
def read_scalar_value : PM ScalarValue := do
  let m ← readByte
  if m = 0xc0 then pure (.Int32 none)
  else if m = 0xd2 then do
    let b3 ← readByte
    let b2 ← readByte
    let b1 ← readByte
    let b0 ← readByte
    let u := ((b3 * 256 + b2) * 256 + b1) * 256 + b0
    pure (.Int32 (some (if u < 2147483648 then (u : Int)
                        else (u : Int) - 4294967296)))
  else throwE (.markerMismatch m)

/-- Body of the `for param in params` loop of `prepare_params`: convert
each raw parameter and encode the resulting scalar. -/
def write_params_loop : List ParamExternData → PM Unit
  | [] => pure ()
  | p :: rest => do
      let value ← liftE (datum_to_scalar p.value p.ptype p.isnull)
      write_scalar_value value
      write_params_loop rest

/-- Payload-writing phase of `prepare_params` (`protocol.rs` lines
192-196): the array length (checked through `u32::try_from`) followed
by the encoded scalars. -/
def params_payload (params : List ParamExternData) : PM Unit := do
  let n ← liftE (u32_try_from params.length)
  write_array_len n
  write_params_loop params

/-- `prepare_params` (`protocol.rs` lines 186-209): the deferred-length
pattern — placeholder header, payload, measure, `u16::try_from` the
measured length, rewrite the header, advance past the payload. -/
def prepare_params (params : List ParamExternData) : PM Unit := do
  reset
  write_header Header.default
  let pos_init ← getPos
  params_payload params
  let pos_final ← getPos
  let length ← liftE (u16_try_from (pos_final - pos_init))
  reset
  write_header ⟨.ToWorker, .Bind, .Last, length⟩
  rewind length

/-- Element loop of `read_params`. -/
def read_params_loop : Nat → PM (List ScalarValue)
  | 0 => pure []
  | n + 1 => do
      let v ← read_scalar_value
      let rest ← read_params_loop n
      pure (v :: rest)

/-- `read_params` (`protocol.rs` lines 211-219): the array length, then
that many scalar values in order. -/
def read_params : PM (List ScalarValue) := do
  let len ← read_array_len
  read_params_loop len

/-- `send_params` (`protocol.rs` lines 221-231). -/
def send_params (ctx : SignalCtx) (slot_id : Nat)
    (params : List ParamExternData) : PM (Direction × Nat) := do
  prepare_params params
  pure (Direction.ToWorker, signal ctx slot_id Direction.ToWorker)

/-! Failure packet (`protocol.rs` lines 233-262). -/

/-- `read_error` (`protocol.rs` lines 235-240): like `read_query` but
the message is copied out (an owned `String` in the source). -/
def read_error : PM (List Nat) := do
  let len ← read_str_len
  let buf ← look_ahead len
  pure buf

/-- `prepare_error` (`protocol.rs` lines 242-254): computes
`1 + 1 + u32::try_from(message.len())`, builds the header with that
length cast `as u16` (hence `% 65536` — the source has no
`payload_max_size` check here), writes the header and then the
message. -/
def prepare_error (message : List Nat) : PM Unit := do
  reset
  let len32 ← liftE (u32_try_from message.length)
  let length := 1 + 1 + len32
  write_header ⟨.ToBackend, .Failure, .Last, length % 65536⟩
  write_str message

/-- `send_error` (`protocol.rs` lines 256-262): signals `ToBackend`. -/
def send_error (ctx : SignalCtx) (slot_id : Nat) (message : List Nat) :
    PM (Direction × Nat) := do
  prepare_error message
  pure (Direction.ToBackend, signal ctx slot_id Direction.ToBackend)

/-! Metadata packet, table-reference request half
(`protocol.rs` lines 264-333). -/

/-- `write_c_str` (`protocol.rs` lines 264-271): a binary blob of the
string bytes plus one terminating null byte, length-prefixed with
`len + 1` where `len` went through `u32::try_from`. -/
def write_c_str (s : List Nat) : PM Unit := do
  let len ← liftE (u32_try_from s.length)
  write_bin_len (len + 1)
  write_bytes s
  write_pfix 0

/-- Table reference, after `datafusion_sql::TableReference`: `bare`
is `Bare { table }`, `withSchema` is `Partial { schema, table }` and
`full` is `Full { catalog, schema, table }`.  Strings are UTF-8 byte
sequences. -/
inductive TableReference where
  | bare (table : List Nat)
  | withSchema (schema table : List Nat)
  | full (catalog schema table : List Nat)
deriving DecidableEq, Repr

/-- `write_table_ref` (`protocol.rs` lines 281-294): a 1-element array
for a bare reference, a 2-element array `[schema, table]` otherwise —
the `Full` and `Partial` match arms share one body, so the catalog of a
`Full` reference is dropped. -/
def write_table_ref (table : TableReference) : PM Unit :=
  match table with
  | .bare table => do
      write_array_len 1
      write_c_str table
  | .full _ schema table => do
      write_array_len 2
      write_c_str schema
      write_c_str table
  | .withSchema schema table => do
      write_array_len 2
      write_c_str schema
      write_c_str table

/-- Element loop of `prepare_table_refs`. -/
def write_tables_loop : List TableReference → PM Unit
  | [] => pure ()
  | t :: rest => do
      write_table_ref t
      write_tables_loop rest

/-- Payload-writing phase of `prepare_table_refs` (`protocol.rs` lines
305-308): the checked array length followed by the references. -/
def tables_payload (tables : List TableReference) : PM Unit := do
  let n ← liftE (u32_try_from tables.length)
  write_array_len n
  write_tables_loop tables

/-- `prepare_table_refs` (`protocol.rs` lines 296-321): the
deferred-length pattern around `tables_payload`; the rewritten header
has direction `ToBackend` and packet `Metadata`. -/
def prepare_table_refs (tables : List TableReference) : PM Unit := do
  reset
  write_header Header.default
  let pos_init ← getPos
  tables_payload tables
  let pos_final ← getPos
  let length ← liftE (u16_try_from (pos_final - pos_init))
  reset
  write_header ⟨.ToBackend, .Metadata, .Last, length⟩
  rewind length

/-- `send_table_refs` (`protocol.rs` lines 323-333): writes the framed
table references and then calls `signal(slot_id, Direction::ToWorker)`
— the literal direction in the source, although the header written by
`prepare_table_refs` says `ToBackend`. -/
def send_table_refs (ctx : SignalCtx) (slot_id : Nat)
    (tables : List TableReference) : PM (Direction × Nat) := do
  prepare_table_refs tables
  pure (Direction.ToWorker, signal ctx slot_id Direction.ToWorker)

/-! Metadata packet, table-metadata response half
(`protocol.rs` lines 335-393).  The catalog collaborator (`PgRelation`)
is modelled from the spec as explicit data. -/

/-- Modelled from the spec: the closed encoded-type enumeration of
`crate::data_type::EncodedType` (not under `src/`), with its fallible
conversion from a type oid.  Only the discriminants' existence matters
here; the claims do not constrain their values. -/
inductive EncodedType where
  | int32
  | utf8
deriving DecidableEq, Repr

/-- Discriminant of an `EncodedType` (`etype as u8` in the source). -/
def EncodedType.toU8 : EncodedType → Nat
  | .int32 => 0
  | .utf8 => 1

/-- Modelled from the spec: `EncodedType::try_from(type_oid)`, the
fallible map from a native type oid to the closed enumeration. -/
def EncodedType.tryFrom (oid : Nat) : Except FusionError EncodedType :=
  if oid = INT4OID then .ok .int32
  else if oid = TEXTOID then .ok .utf8
  else .error (.unsupportedType oid)

/-- Modelled from the spec: one column of a relation as the catalog
collaborator exposes it — name, type oid, not-null constraint, and the
logically-dropped flag. -/
structure PgAttribute where
  name : List Nat
  typeOid : Nat
  attnotnull : Bool
  isDropped : Bool
deriving DecidableEq, Repr

/-- Modelled from the spec: a relation's tuple descriptor as obtained
through `PgRelation::with_lock`. -/
structure PgRel where
  attrs : List PgAttribute
deriving DecidableEq, Repr

/-- Column loop of `serialize_table`: dropped columns are skipped, each
remaining column is a 3-element array of name, encoded type and
nullability. -/
def write_attrs_loop : List PgAttribute → PM Unit
  | [] => pure ()
  | a :: rest =>
      if a.isDropped then write_attrs_loop rest
      else do
        let etype ← liftE (EncodedType.tryFrom a.typeOid)
        write_array_len 3
        write_str a.name
        write_u8 etype.toU8
        write_bool (!a.attnotnull)
        write_attrs_loop rest

/-- `serialize_table` (`protocol.rs` lines 335-357): look up the
relation (modelled as an explicit catalog map), write its oid as a
`u32`, the count of non-dropped columns as an array length (checked
through `u32::try_from`), then the column descriptors. -/
def serialize_table (catalog : Nat → Option PgRel) (rel_oid : Nat) :
    PM Unit :=
  match catalog rel_oid with
  | none => throwE (.catalogLookup rel_oid)
  | some rel => do
      let attr_num ←
        liftE (u32_try_from (rel.attrs.filter (fun a => !a.isDropped)).length)
      write_u32 (rel_oid % 4294967296)
      write_array_len attr_num
      write_attrs_loop rel.attrs

/-- Relation loop of `prepare_metadata`. -/
def write_rels_loop (catalog : Nat → Option PgRel) : List Nat → PM Unit
  | [] => pure ()
  | oid :: rest => do
      serialize_table catalog oid
      write_rels_loop catalog rest

/-- Payload-writing phase of `prepare_metadata` (`protocol.rs` lines
365-368): the relation count (cast `as u32`, hence `% 4294967296` with
no failure) followed by the serialized relations. -/
def metadata_payload (catalog : Nat → Option PgRel) (rel_oids : List Nat) :
    PM Unit := do
  write_array_len (rel_oids.length % 4294967296)
  write_rels_loop catalog rel_oids

/-- `prepare_metadata` (`protocol.rs` lines 359-381): the
deferred-length pattern around `metadata_payload`; the rewritten header
has direction `ToWorker` and packet `Metadata`. -/
def prepare_metadata (catalog : Nat → Option PgRel) (rel_oids : List Nat) :
    PM Unit := do
  reset
  write_header Header.default
  let pos_init ← getPos
  metadata_payload catalog rel_oids
  let pos_final ← getPos
  let length ← liftE (u16_try_from (pos_final - pos_init))
  reset
  write_header ⟨.ToWorker, .Metadata, .Last, length⟩
  rewind length

/-- `send_metadata` (`protocol.rs` lines 383-393): signals `ToWorker`. -/
def send_metadata (ctx : SignalCtx) (slot_id : Nat)
    (catalog : Nat → Option PgRel) (rel_oids : List Nat) :
    PM (Direction × Nat) := do
  prepare_metadata catalog rel_oids
  pure (Direction.ToWorker, signal ctx slot_id Direction.ToWorker)

/-! Reasoning infrastructure: characterizations of every primitive as
equations on `PRes` results, used to run the codec functions forwards
and backwards in proofs. -/

theorem bind_is {α β : Type} (x : PM α) (f : α → PM β) :
    x >>= f = PM.bind x f := rfl

theorem pure_is {α : Type} (a : α) : (pure a : PM α) = PM.pure a := rfl

theorem PM.bind_ok_iff {α β : Type} {x : PM α} {f : α → PM β}
    {b : β} {s s₂ : SlotStream} :
    PM.bind x f s = .ok b s₂ ↔
      ∃ a s₁, x s = .ok a s₁ ∧ f a s₁ = .ok b s₂ := by
  cases hx : x s with
  | ok a s₁ =>
      simp only [PM.bind, hx]
      constructor
      · intro hf
        exact ⟨a, s₁, rfl, hf⟩
      · rintro ⟨a', s₁', he, hf⟩
        cases he
        exact hf
  | err e s₁ =>
      simp only [PM.bind, hx]
      constructor
      · intro hf
        cases hf
      · rintro ⟨a', s₁', he, hf⟩
        cases he

theorem PM.bind_ok_step {α β : Type} {x : PM α} {f : α → PM β}
    {s s₁ : SlotStream} {a : α} (hx : x s = .ok a s₁) :
    PM.bind x f s = f a s₁ := by
  simp only [PM.bind, hx]

theorem PM.bind_err_step {α β : Type} {x : PM α} {f : α → PM β}
    {s s₁ : SlotStream} {e : FusionError} (hx : x s = .err e s₁) :
    PM.bind x f s = .err e s₁ := by
  simp only [PM.bind, hx]

theorem reset_eq {s : SlotStream} : reset s = .ok () { s with pos := 0 } := rfl

theorem reset_ok_iff {s s' : SlotStream} {u : Unit} :
    reset s = .ok u s' ↔ s' = { s with pos := 0 } := by
  cases u
  simp [reset, eq_comm]

theorem getPos_eq {s : SlotStream} : getPos s = .ok s.pos s := rfl

theorem getPos_ok_iff {s s' : SlotStream} {a : Nat} :
    getPos s = .ok a s' ↔ a = s.pos ∧ s' = s := by
  obtain ⟨cap, buf, pos⟩ := s
  simp [getPos, eq_comm]

theorem liftE_ok_iff {α : Type} {x : Except FusionError α} {a : α}
    {s s' : SlotStream} :
    liftE x s = .ok a s' ↔ x = .ok a ∧ s' = s := by
  cases x <;> simp [liftE, eq_comm]

theorem liftE_ok_step {α : Type} {x : Except FusionError α} {a : α}
    (h : x = .ok a) {s : SlotStream} : liftE x s = .ok a s := by
  rw [h]
  rfl

theorem rewind_ok_iff {n : Nat} {s s' : SlotStream} {u : Unit} :
    rewind n s = .ok u s' ↔
      s.pos + n ≤ s.cap ∧ s' = { s with pos := s.pos + n } := by
  cases u
  obtain ⟨cap, buf, pos⟩ := s
  unfold rewind
  dsimp only
  split <;> simp_all [eq_comm]

theorem write_bytes_ok_iff {bs : List Nat} {s s' : SlotStream} {u : Unit} :
    write_bytes bs s = .ok u s' ↔
      s.pos + bs.length ≤ s.cap ∧
        s' = ⟨s.cap, writeAt s.buf s.pos bs, s.pos + bs.length⟩ := by
  cases u
  obtain ⟨cap, buf, pos⟩ := s
  unfold write_bytes
  dsimp only
  split <;> simp_all [eq_comm]

theorem write_bytes_ok {bs : List Nat} {s : SlotStream}
    (h : s.pos + bs.length ≤ s.cap) :
    write_bytes bs s =
      .ok () ⟨s.cap, writeAt s.buf s.pos bs, s.pos + bs.length⟩ := by
  obtain ⟨cap, buf, pos⟩ := s
  unfold write_bytes
  dsimp only
  rw [if_pos h]

theorem write_bytes_err {bs : List Nat} {s : SlotStream}
    (h : ¬ s.pos + bs.length ≤ s.cap) :
    write_bytes bs s = .err .outOfBounds s := by
  obtain ⟨cap, buf, pos⟩ := s
  unfold write_bytes
  dsimp only
  rw [if_neg h]

/-- Two consecutive writes are one write of the concatenated bytes. -/
theorem writeAt_append (f : Nat → Nat) (p : Nat) (as bs : List Nat) :
    writeAt (writeAt f p as) (p + as.length) bs = writeAt f p (as ++ bs) := by
  funext i
  simp only [writeAt, List.length_append]
  by_cases h1 : p ≤ i
  · by_cases h2 : i < p + as.length
    · rw [if_neg (by omega), if_pos ⟨h1, h2⟩, if_pos ⟨h1, by omega⟩,
        List.getD_append _ _ _ _ (by omega)]
    · by_cases h3 : i < p + as.length + bs.length
      · rw [if_pos ⟨by omega, by omega⟩, if_pos ⟨h1, by omega⟩,
          List.getD_append_right _ _ _ _ (by omega)]
        congr 1
        omega
      · rw [if_neg (by omega), if_neg (by omega), if_neg (by omega)]
  · rw [if_neg (by omega), if_neg (by omega), if_neg (by omega)]

theorem writeAt_lt {f : Nat → Nat} {p : Nat} {bs : List Nat} {i : Nat}
    (h : i < p) : writeAt f p bs i = f i := by
  unfold writeAt
  rw [if_neg (by omega)]

theorem writeAt_getD {f : Nat → Nat} {p : Nat} {bs : List Nat} {i : Nat}
    (h1 : p ≤ i) (h2 : i < p + bs.length) :
    writeAt f p bs i = bs.getD (i - p) 0 := by
  unfold writeAt
  rw [if_pos ⟨h1, h2⟩]

/-- Reading back exactly the bytes of the latest write. -/
theorem bufSlice_writeAt (f : Nat → Nat) (p : Nat) (q : List Nat) :
    bufSlice (writeAt f p q) p q.length = q := by
  apply List.ext_getElem
  · simp [bufSlice]
  · intro i h1 h2
    simp only [bufSlice, List.getElem_map, List.getElem_range]
    rw [writeAt_getD (by omega) (by omega)]
    simp only [Nat.add_sub_cancel_left]
    exact List.getD_eq_getElem q 0 h2

theorem write_bytes_ok_mk {bs : List Nat} {cap pos : Nat} {buf : Nat → Nat}
    (h : pos + bs.length ≤ cap) :
    write_bytes bs ⟨cap, buf, pos⟩ =
      .ok () ⟨cap, writeAt buf pos bs, pos + bs.length⟩ := by
  unfold write_bytes
  dsimp only
  rw [if_pos h]

theorem write_bytes_err_mk {bs : List Nat} {cap pos : Nat} {buf : Nat → Nat}
    (h : ¬ pos + bs.length ≤ cap) :
    write_bytes bs ⟨cap, buf, pos⟩ = .err .outOfBounds ⟨cap, buf, pos⟩ := by
  unfold write_bytes
  dsimp only
  rw [if_neg h]

theorem PM.bind_pure {α : Type} (x : PM α) : PM.bind x PM.pure = x := by
  funext s
  cases hx : x s <;> simp [PM.bind, PM.pure, hx]

theorem write_bytes_seq_bind_ok {β : Type} {as bs : List Nat}
    {k : Unit → PM β} {s s₂ : SlotStream} {b : β} :
    PM.bind (write_bytes as) (fun _ => PM.bind (write_bytes bs) k) s = .ok b s₂ ↔
      PM.bind (write_bytes (as ++ bs)) k s = .ok b s₂ := by
  obtain ⟨cap, buf, pos⟩ := s
  by_cases h1 : pos + as.length ≤ cap
  · rw [PM.bind_ok_step (write_bytes_ok_mk h1)]
    by_cases h2 : pos + as.length + bs.length ≤ cap
    · have hab : pos + (as ++ bs).length ≤ cap := by
        simp only [List.length_append]
        omega
      rw [PM.bind_ok_step (write_bytes_ok_mk h2),
        PM.bind_ok_step (write_bytes_ok_mk hab)]
      rw [writeAt_append, List.length_append, Nat.add_assoc]
    · have hab : ¬ pos + (as ++ bs).length ≤ cap := by
        simp only [List.length_append]
        omega
      rw [PM.bind_err_step (write_bytes_err_mk h2),
        PM.bind_err_step (write_bytes_err_mk hab)]
      constructor <;> (intro hh; exact absurd hh (by simp))
  · have hab : ¬ pos + (as ++ bs).length ≤ cap := by
      simp only [List.length_append]
      omega
    rw [PM.bind_err_step (write_bytes_err_mk h1),
      PM.bind_err_step (write_bytes_err_mk hab)]

theorem write_bytes_seq_ok {as bs : List Nat} {s s₂ : SlotStream} {u : Unit} :
    PM.bind (write_bytes as) (fun _ => write_bytes bs) s = .ok u s₂ ↔
      write_bytes (as ++ bs) s = .ok u s₂ := by
  have h := @write_bytes_seq_bind_ok Unit as bs PM.pure s s₂ u
  rw [PM.bind_pure, PM.bind_pure] at h
  exact h

theorem direction_toU8_lt (d : Direction) : d.toU8 < 128 := by
  cases d <;> decide

theorem packet_toU8_lt (p : Packet) : p.toU8 < 128 := by
  cases p <;> decide

theorem flag_toU8_lt (f : Flag) : f.toU8 < 128 := by
  cases f <;> decide

theorem direction_tryFrom_toU8 (d : Direction) :
    Direction.tryFrom d.toU8 = .ok d := by
  cases d <;> rfl

theorem packet_tryFrom_toU8 (p : Packet) :
    Packet.tryFrom p.toU8 = .ok p := by
  cases p <;> rfl

theorem flag_tryFrom_toU8 (f : Flag) :
    Flag.tryFrom f.toU8 = .ok f := by
  cases f <;> rfl

theorem write_pfix_eq_small {v : Nat} (h : v < 128) :
    write_pfix v = write_bytes [v] := by
  unfold write_pfix
  rw [if_pos h]

theorem headerBytes_length (h : Header) : (headerBytes h).length = 6 := by
  simp [headerBytes, u16Bytes]

/-- A header write succeeds exactly when the six bytes fit, and then it
overwrites `headerBytes` at the cursor. -/
theorem write_header_ok_iff {h : Header} {s s' : SlotStream} {u : Unit} :
    write_header h s = .ok u s' ↔
      s.pos + 6 ≤ s.cap ∧
        s' = ⟨s.cap, writeAt s.buf s.pos (headerBytes h), s.pos + 6⟩ := by
  have e : write_header h =
      PM.bind (write_bytes [h.direction.toU8])
        (fun _ => PM.bind (write_bytes [h.packet.toU8])
          (fun _ => PM.bind (write_bytes [h.flag.toU8])
            (fun _ => write_bytes (u16Bytes h.length)))) := by
    unfold write_header write_u16
    rw [write_pfix_eq_small (direction_toU8_lt _),
      write_pfix_eq_small (packet_toU8_lt _),
      write_pfix_eq_small (flag_toU8_lt _)]
    rfl
  rw [e, write_bytes_seq_bind_ok, write_bytes_seq_bind_ok, write_bytes_seq_ok]
  have e2 : write_bytes (([h.direction.toU8] ++ [h.packet.toU8] ++ [h.flag.toU8])
      ++ u16Bytes h.length) = write_bytes (headerBytes h) := rfl
  rw [show (([h.direction.toU8] ++ [h.packet.toU8]) ++ [h.flag.toU8]) ++ u16Bytes h.length
      = headerBytes h by simp [headerBytes]]
  rw [write_bytes_ok_iff]
  rw [headerBytes_length]

theorem write_header_ok {h : Header} {s : SlotStream}
    (hc : s.pos + 6 ≤ s.cap) :
    write_header h s =
      .ok () ⟨s.cap, writeAt s.buf s.pos (headerBytes h), s.pos + 6⟩ :=
  write_header_ok_iff.mpr ⟨hc, rfl⟩

/-- Reading a header back from a buffer whose first six bytes are
`headerBytes h` yields `h` again and leaves the cursor at 6. -/
theorem consume_header_of_agree {cap : Nat} {buf : Nat → Nat} {h : Header}
    (hlen : h.length < 65536) (hcap : 6 ≤ cap)
    (hagree : ∀ i, i < 6 → buf i = (headerBytes h).getD i 0) :
    consume_header ⟨cap, buf, 0⟩ = .ok h ⟨cap, buf, 6⟩ := by
  have e0 : buf 0 = h.direction.toU8 := by
    simpa [headerBytes, u16Bytes] using hagree 0 (by omega)
  have e1 : buf 1 = h.packet.toU8 := by
    simpa [headerBytes, u16Bytes] using hagree 1 (by omega)
  have e2 : buf 2 = h.flag.toU8 := by
    simpa [headerBytes, u16Bytes] using hagree 2 (by omega)
  have e3 : buf 3 = 0xcd := by
    simpa [headerBytes, u16Bytes] using hagree 3 (by omega)
  have e4 : buf 4 = h.length / 256 % 256 := by
    simpa [headerBytes, u16Bytes] using hagree 4 (by omega)
  have e5 : buf 5 = h.length % 256 := by
    simpa [headerBytes, u16Bytes] using hagree 5 (by omega)
  have hc0 : 0 < cap := by omega
  have hc1 : 1 < cap := by omega
  have hc2 : 2 < cap := by omega
  have hc3 : 3 < cap := by omega
  have hc4 : 4 < cap := by omega
  have hc5 : 5 < cap := by omega
  obtain ⟨d, p, f, len⟩ := h
  simp only [Header.length] at hlen
  cases d <;> cases p <;> cases f <;>
    (simp only [Direction.toU8, Packet.toU8, Flag.toU8] at e0 e1 e2
     simp [consume_header, read_pfix, readByte, read_u16, liftE,
       Direction.tryFrom, Packet.tryFrom, Flag.tryFrom, bind_is, PM.bind,
       pure_is, PM.pure, throwE, e0, e1, e2, e3, e4, e5,
       hc0, hc1, hc2, hc3, hc4, hc5]
     omega)

/-- Agreement of the first six bytes after a header write at position 0,
possibly followed by further writes strictly beyond position 5. -/
theorem agree_of_writeAt_header {buf : Nat → Nat} {h : Header} :
    ∀ i, i < 6 → writeAt buf 0 (headerBytes h) i = (headerBytes h).getD i 0 := by
  intro i hi
  rw [writeAt_getD (by omega) (by rw [headerBytes_length]; omega),
    Nat.sub_zero]

/-- Claim C3 — header round-trip.  For every direction, packet kind,
flag and 16-bit length, writing the header into a stream at position 0
and re-reading the stream from position 0 returns exactly the same
header (the write succeeds whenever the six header bytes fit the
slot). -/
theorem c3_header_round_trip (h : Header) (s : SlotStream)
    (hpos : s.pos = 0) (hlen : h.length < 65536) (hcap : 6 ≤ s.cap) :
    ∃ s', write_header h s = .ok () s' ∧
      consume_header { s' with pos := 0 } = .ok h { s' with pos := 6 } := by
  refine ⟨⟨s.cap, writeAt s.buf s.pos (headerBytes h), s.pos + 6⟩, ?_, ?_⟩
  · exact write_header_ok (by omega)
  · rw [hpos]
    exact consume_header_of_agree hlen hcap agree_of_writeAt_header

/-- Witness for C3: a concrete round-trip through a fresh slot. -/
theorem c3_header_round_trip_witness :
    ∃ s', write_header ⟨.ToBackend, .Metadata, .Last, 4466⟩
        (freshStream DATA_SIZE) = .ok () s' ∧
      consume_header { s' with pos := 0 } =
        .ok ⟨.ToBackend, .Metadata, .Last, 4466⟩ { s' with pos := 6 } :=
  c3_header_round_trip ⟨.ToBackend, .Metadata, .Last, 4466⟩
    (freshStream DATA_SIZE) rfl (by decide) (by decide)

/-- Any successful run of the deferred-length writer pattern (the common
shape of `prepare_params`, `prepare_table_refs` and `prepare_metadata`)
leaves the stream so that the rewritten header decodes with a length
field equal to the payload bytes written after the 6-byte header, and
the cursor at the payload end `6 + length`. -/
theorem deferred_pattern_ok (payload : PM Unit) (d : Direction) (p : Packet)
    {s0 s' : SlotStream} {u : Unit}
    (h : (do
      reset
      write_header Header.default
      let pos_init ← getPos
      payload
      let pos_final ← getPos
      let length ← liftE (u16_try_from (pos_final - pos_init))
      reset
      write_header ⟨d, p, .Last, length⟩
      rewind length) s0 = .ok u s') :
    consume_header { s' with pos := 0 } =
      .ok ⟨d, p, .Last, s'.pos - 6⟩ { s' with pos := 6 } ∧ 6 ≤ s'.pos := by
  simp only [bind_is, PM.bind_ok_iff] at h
  obtain ⟨_, s1, h1, _, s2, h2, pos_init, s2', h3, _, s3, h4,
    pos_final, s3', h5, length, s3'', h6, _, s4, h7, _, s5, h8, h9⟩ := h
  rw [reset_ok_iff] at h1
  rw [write_header_ok_iff] at h2
  obtain ⟨hc2, rfl⟩ := h2
  rw [getPos_ok_iff] at h3
  obtain ⟨rfl, rfl⟩ := h3
  rw [getPos_ok_iff] at h5
  obtain ⟨rfl, rfl⟩ := h5
  rw [liftE_ok_iff] at h6
  obtain ⟨hu16, rfl⟩ := h6
  unfold u16_try_from at hu16
  split at hu16
  case isFalse => cases hu16
  case isTrue hlt =>
    cases hu16
    rw [reset_ok_iff] at h7
    subst h7
    rw [write_header_ok_iff] at h8
    obtain ⟨hc8, rfl⟩ := h8
    rw [rewind_ok_iff] at h9
    obtain ⟨hc9, rfl⟩ := h9
    subst h1
    dsimp only at hlt hc8 hc9 ⊢
    simp only [Nat.add_sub_cancel_left]
    constructor
    · exact consume_header_of_agree hlt (by omega) agree_of_writeAt_header
    · omega

/-- Claim C4 — exact deferred length.  Whenever `prepare_params`,
`prepare_table_refs` or `prepare_metadata` succeeds, the rewritten
header decodes to the expected direction/packet/`Last` flag with a
length field equal to exactly the payload bytes written after the
6-byte header (`pos_final - pos_init = s'.pos - 6`), and the cursor
ends at the payload end `6 + length`. -/
theorem c4_deferred_length_exact
    (params : List ParamExternData) (tables : List TableReference)
    (catalog : Nat → Option PgRel) (rel_oids : List Nat)
    (s0 s' : SlotStream) (u : Unit) :
    (prepare_params params s0 = .ok u s' →
      consume_header { s' with pos := 0 } =
        .ok ⟨.ToWorker, .Bind, .Last, s'.pos - 6⟩ { s' with pos := 6 } ∧
      6 ≤ s'.pos) ∧
    (prepare_table_refs tables s0 = .ok u s' →
      consume_header { s' with pos := 0 } =
        .ok ⟨.ToBackend, .Metadata, .Last, s'.pos - 6⟩ { s' with pos := 6 } ∧
      6 ≤ s'.pos) ∧
    (prepare_metadata catalog rel_oids s0 = .ok u s' →
      consume_header { s' with pos := 0 } =
        .ok ⟨.ToWorker, .Metadata, .Last, s'.pos - 6⟩ { s' with pos := 6 } ∧
      6 ≤ s'.pos) := by
  refine ⟨fun h => ?_, fun h => ?_, fun h => ?_⟩
  · exact deferred_pattern_ok (params_payload params) .ToWorker .Bind h
  · exact deferred_pattern_ok (tables_payload tables) .ToBackend .Metadata h
  · exact deferred_pattern_ok (metadata_payload catalog rel_oids)
      .ToWorker .Metadata h

/-- Witness for C4: a concrete successful `prepare_table_refs` run on a
fresh slot, with the header length field read back as the cursor
position minus 6. -/
theorem c4_deferred_length_exact_witness :
    ∃ s', prepare_table_refs [.bare [116]] (freshStream DATA_SIZE) =
        .ok () s' ∧
      consume_header { s' with pos := 0 } =
        .ok ⟨.ToBackend, .Metadata, .Last, s'.pos - 6⟩ { s' with pos := 6 } ∧
      6 ≤ s'.pos := by
  obtain ⟨s', hs⟩ : ∃ s',
      prepare_table_refs [.bare [116]] (freshStream DATA_SIZE) = .ok () s' :=
    ⟨_, rfl⟩
  exact ⟨s', hs,
    (c4_deferred_length_exact [] [.bare [116]] (fun _ => none) []
      (freshStream DATA_SIZE) s' ()).2.1 hs⟩

/-- Length of the string-length header. -/
theorem strLenBytes_length (n : Nat) :
    (strLenBytes n).length = strLenSize n := by
  unfold strLenBytes strLenSize
  split_ifs <;> rfl

/-- A result with a recorded error is an `err` with some final state. -/
theorem exists_err_of_errProj {α : Type} {x : PRes α} {e : FusionError}
    (h : x.err? = some e) : ∃ s, x = .err e s := by
  cases x with
  | ok a s => simp [PRes.err?] at h
  | err e' s =>
      simp only [PRes.err?, Option.some.injEq] at h
      exact ⟨s, by rw [h]⟩

/-- A successful `Unit` result is an `ok` with some final state. -/
theorem exists_ok_of_isOk {x : PRes Unit} (h : x.isOk = true) :
    ∃ s, x = .ok () s := by
  cases x with
  | ok a s => exact ⟨s, by cases a; rfl⟩
  | err e s => simp [PRes.isOk] at h

theorem write_header_ok_mk {h : Header} {cap pos : Nat} {buf : Nat → Nat}
    (hc : pos + 6 ≤ cap) :
    write_header h ⟨cap, buf, pos⟩ =
      .ok () ⟨cap, writeAt buf pos (headerBytes h), pos + 6⟩ :=
  write_header_ok hc

/-- Claim C5 (counterexample) — the claim "prepare_query succeeds for
every query whose computed payload length is exactly payload_max_size"
is false: the computed length `1 + 1 + query.len()` undercounts the
actual 3-byte MessagePack string prefix of a query of 256 bytes or
more, so at the exact boundary the write runs one byte past the slot
capacity and fails. -/
theorem c5_boundary_claim_counterexample :
    1 + 1 + (List.replicate 8184 65).length = Header.payload_max_size ∧
    (prepare_query (List.replicate 8184 65) (freshStream DATA_SIZE)).isOk
      = false := by
  have hql : (List.replicate (8184 : Nat) (65 : Nat)).length = 8184 :=
    List.length_replicate 8184 65
  constructor
  · rw [hql]
    decide
  · unfold prepare_query write_str freshStream DATA_SIZE
    simp only [bind_is, hql]
    rw [PM.bind_ok_step reset_eq]
    try dsimp only
    rw [if_neg (by decide)]
    rw [PM.bind_ok_step (write_header_ok_mk (by decide))]
    try dsimp only
    rw [PM.bind_ok_step (write_bytes_ok_mk
      (by rw [strLenBytes_length]; decide))]
    try dsimp only
    rw [write_bytes_err_mk (by rw [hql, strLenBytes_length]; decide)]
    rfl

/-- Claim C5 (amended) — on a slot of capacity `DATA_SIZE`,
`prepare_query` fails with `PayloadTooLarge` carrying the query byte
length whenever the computed payload length `1 + 1 + query.len()`
exceeds `payload_max_size`; at computed length exactly
`payload_max_size` it fails with an out-of-bounds stream write (the
size check passes but the 3-byte string prefix of a 256-byte-or-longer
query overruns the capacity by one byte); and it succeeds for every
computed length strictly below `payload_max_size`. -/
theorem c5_boundary_amended (query : List Nat) (s : SlotStream)
    (hcap : s.cap = DATA_SIZE) :
    (1 + 1 + query.length = Header.payload_max_size →
       ∃ s', prepare_query query s = .err .outOfBounds s') ∧
    (Header.payload_max_size < 1 + 1 + query.length →
       prepare_query query s = .err (.payloadTooLarge query.length)
         { s with pos := 0 }) ∧
    (1 + 1 + query.length < Header.payload_max_size →
       ∃ s', prepare_query query s = .ok () s') := by
  obtain ⟨cap, buf, pos⟩ := s
  dsimp only at hcap
  have hcap' : cap = 8192 := hcap
  subst hcap'
  have hpm : Header.payload_max_size = 8186 := rfl
  refine ⟨fun hb => ?_, fun hgt => ?_, fun hlt => ?_⟩
  · have hql : query.length = 8184 := by omega
    apply exists_err_of_errProj
    unfold prepare_query write_str
    simp only [bind_is]
    rw [PM.bind_ok_step reset_eq]
    try dsimp only
    rw [if_neg (by omega)]
    rw [PM.bind_ok_step (write_header_ok_mk (by omega))]
    try dsimp only
    rw [PM.bind_ok_step (write_bytes_ok_mk
      (by rw [strLenBytes_length, hql]; decide))]
    try dsimp only
    rw [write_bytes_err_mk
      (by rw [strLenBytes_length, hql]; decide)]
    rfl
  · unfold prepare_query
    simp only [bind_is]
    rw [PM.bind_ok_step reset_eq]
    try dsimp only
    rw [if_pos (by omega)]
    rfl
  · have hlen : query.length < 8184 := by omega
    have hsz : (strLenBytes query.length).length ≤ 3 := by
      rw [strLenBytes_length]
      unfold strLenSize
      split_ifs <;> omega
    apply exists_ok_of_isOk
    unfold prepare_query write_str
    simp only [bind_is]
    rw [PM.bind_ok_step reset_eq]
    try dsimp only
    rw [if_neg (by omega)]
    rw [PM.bind_ok_step (write_header_ok_mk (by omega))]
    try dsimp only
    rw [PM.bind_ok_step (write_bytes_ok_mk (by omega))]
    try dsimp only
    rw [write_bytes_ok_mk (by omega)]
    rfl

/-- Witness for the amended C5: on a fresh slot, a query with computed
length one under the limit succeeds and a query with computed length
one over it fails with `PayloadTooLarge` carrying the query byte
length. -/
theorem c5_boundary_amended_witness :
    (∃ s', prepare_query (List.replicate 8183 65) (freshStream DATA_SIZE)
        = .ok () s') ∧
    prepare_query (List.replicate 8185 65) (freshStream DATA_SIZE) =
      .err (.payloadTooLarge (List.replicate 8185 65).length)
        { freshStream DATA_SIZE with pos := 0 } := by
  constructor
  · exact (c5_boundary_amended (List.replicate 8183 65)
      (freshStream DATA_SIZE) rfl).2.2
      (by rw [List.length_replicate]; decide)
  · exact (c5_boundary_amended (List.replicate 8185 65)
      (freshStream DATA_SIZE) rfl).2.1
      (by rw [List.length_replicate]; decide)

/-- Claim C1 — a `pg_fusion` code bug.  `prepare_error` has no
`payload_max_size` check and casts the computed length `as u16`: a
65534-byte message has computed payload length 65536, yet the call
first writes a complete Failure header whose length field is
`65536 mod 2^16 = 0` and only then fails (out of bounds) while writing
the message body, contradicting "rejected before any byte is written"
and "no silent truncation". -/
theorem c1_prepare_error_truncated_header :
    1 + 1 + (List.replicate 65534 97).length = 65536 ∧
    (prepare_error (List.replicate 65534 97) (freshStream DATA_SIZE)).err?
      = some .outOfBounds ∧
    (consume_header
      { (prepare_error (List.replicate 65534 97)
          (freshStream DATA_SIZE)).state with pos := 0 }).val? =
      some ⟨.ToBackend, .Failure, .Last, 0⟩ := by
  have hql : (List.replicate (65534 : Nat) (97 : Nat)).length = 65534 :=
    List.length_replicate 65534 97
  have hchain : prepare_error (List.replicate 65534 97)
      (freshStream DATA_SIZE) =
      .err .outOfBounds
        ⟨8192, writeAt (writeAt (fun _ => 0) 0
            (headerBytes ⟨.ToBackend, .Failure, .Last,
              (1 + 1 + 65534) % 65536⟩)) 6 (strLenBytes 65534),
         6 + (strLenBytes 65534).length⟩ := by
    unfold prepare_error write_str freshStream DATA_SIZE
    simp only [bind_is, hql]
    rw [PM.bind_ok_step reset_eq]
    try dsimp only
    have hu32 : u32_try_from 65534 = Except.ok 65534 := rfl
    rw [PM.bind_ok_step (liftE_ok_step hu32)]
    try dsimp only
    rw [PM.bind_ok_step (write_header_ok_mk (by decide))]
    try dsimp only
    rw [PM.bind_ok_step (write_bytes_ok_mk
      (by rw [strLenBytes_length]; decide))]
    try dsimp only
    rw [write_bytes_err_mk (by rw [hql, strLenBytes_length]; decide)]
  refine ⟨by rw [hql], ?_, ?_⟩
  · rw [hchain]
    rfl
  · rw [hchain]
    have hmod : ((1 : Nat) + 1 + 65534) % 65536 = 0 := by decide
    rw [hmod]
    rw [PRes.state]
    rw [@consume_header_of_agree 8192
      (writeAt (writeAt (fun _ => 0) 0
        (headerBytes ⟨.ToBackend, .Failure, .Last, 0⟩)) 6
        (strLenBytes 65534))
      ⟨.ToBackend, .Failure, .Last, 0⟩ (by decide) (by decide)
      (fun i hi => by
        rw [writeAt_lt (show i < 6 from hi)]
        exact agree_of_writeAt_header i hi)]
    rfl

/-- Claim C2 — a `pg_fusion` code bug.  `send_table_refs` writes a
header with direction `ToBackend` (the metadata request targets the
backend) but then calls `signal(slot_id, Direction::ToWorker)`, so the
process woken is the well-known worker — the sender side — rather than
the slot's registered owner that `ToBackend` selects. -/
theorem c2_send_table_refs_signals_wrong_process :
    ((do
        let r ← send_table_refs ⟨100, fun _ => 200⟩ 5 [.bare [116]]
        reset
        let hd ← consume_header
        pure (r, hd.direction)) (freshStream DATA_SIZE)).val? =
      some ((Direction.ToWorker, 100), Direction.ToBackend) ∧
    signal ⟨100, fun _ => 200⟩ 5 Direction.ToBackend = 200 := by
  constructor
  · rfl
  · rfl

/-- Claim C6 — tag validation.  Decoding a header whose direction byte
is 2, packet byte is 5, or flag byte is 2 fails with a `Deserialize`
error naming that field and carrying the bad value, and every byte
inside each valid range maps to the corresponding enum variant. -/
theorem c6_tag_validation :
    (consume_header
      ⟨DATA_SIZE, fun i => [2, 0, 1, 0xcd, 0, 0].getD i 0, 0⟩).err? =
        some (.deserialize "direction" 2) ∧
    (consume_header
      ⟨DATA_SIZE, fun i => [0, 5, 1, 0xcd, 0, 0].getD i 0, 0⟩).err? =
        some (.deserialize "packet" 5) ∧
    (consume_header
      ⟨DATA_SIZE, fun i => [0, 0, 2, 0xcd, 0, 0].getD i 0, 0⟩).err? =
        some (.deserialize "flag" 2) ∧
    Direction.tryFrom 0 = .ok .ToWorker ∧
    Direction.tryFrom 1 = .ok .ToBackend ∧
    Packet.tryFrom 0 = .ok .Ack ∧
    Packet.tryFrom 1 = .ok .Bind ∧
    Packet.tryFrom 2 = .ok .Failure ∧
    Packet.tryFrom 3 = .ok .Metadata ∧
    Packet.tryFrom 4 = .ok .Parse ∧
    Flag.tryFrom 0 = .ok .More ∧
    Flag.tryFrom 1 = .ok .Last := by
  refine ⟨rfl, rfl, rfl, rfl, rfl, rfl, rfl, rfl, rfl, rfl, rfl, rfl⟩

/-- Claim C7 — concrete Bind scenario.  Encoding the parameters
`[Int32(1), Int32(NULL)]` yields a header with direction `ToWorker`,
packet `Bind`, flag `Last`, and `read_params` decodes the payload back
to `[Int32(Some 1), Int32(None)]`. -/
theorem c7_params_scenario :
    ((do
        prepare_params [⟨1, INT4OID, false, 0⟩, ⟨0, INT4OID, true, 0⟩]
        reset
        let hd ← consume_header
        let ps ← read_params
        pure (hd.direction, hd.packet, hd.flag, ps))
      (freshStream DATA_SIZE)).val? =
    some (Direction.ToWorker, Packet.Bind, Flag.Last,
      [ScalarValue.Int32 (some 1), ScalarValue.Int32 none]) := by
  rfl

/-- Claim C8 — concrete table-reference scenario.  Encoding
`bare("table1")` and `partial("schema","table2")` produces a 2-element
outer array whose first reference is a 1-element array and second a
2-element array, each string component a length-prefixed binary blob
of the string bytes plus one null byte (recorded lengths
`string length + 1`). -/
theorem c8_table_refs_scenario :
    ((do
        prepare_table_refs
          [.bare [116, 97, 98, 108, 101, 49],
           .withSchema [115, 99, 104, 101, 109, 97]
             [116, 97, 98, 108, 101, 50]]
        reset
        let _hd ← consume_header
        let n ← read_array_len
        let e1 ← read_array_len
        let l1 ← read_bin_len
        let b1 ← look_ahead l1
        rewind l1
        let e2 ← read_array_len
        let ls ← read_bin_len
        let bs ← look_ahead ls
        rewind ls
        let l2 ← read_bin_len
        let b2 ← look_ahead l2
        pure (n, e1, l1, b1, e2, ls, bs, l2, b2))
      (freshStream DATA_SIZE)).val? =
    some (2, 1, 7, [116, 97, 98, 108, 101, 49, 0],
          2, 7, [115, 99, 104, 101, 109, 97, 0],
          7, [116, 97, 98, 108, 101, 50, 0]) := by
  rfl

/-- Claim C10 — the catalog component of a `Full` table reference is
silently discarded: `write_table_ref` encodes
`Full {catalog, schema, table}` and `Partial {schema, table}` to
byte-identical output for every catalog value, so the encoding is not
injective and a receiver cannot tell whether a catalog was present. -/
theorem c10_write_table_ref_drops_catalog
    (catalog schema table : List Nat) :
    write_table_ref (.full catalog schema table) =
      write_table_ref (.withSchema schema table) := rfl

theorem readByte_ok_mk {cap pos : Nat} {buf : Nat → Nat} (h : pos < cap) :
    readByte ⟨cap, buf, pos⟩ = .ok (buf pos) ⟨cap, buf, pos + 1⟩ := by
  unfold readByte
  dsimp only
  rw [if_pos h]

/-- Reading back a string-length header written by `write_str`. -/
theorem read_str_len_of_strLenBytes {cap : Nat} {buf : Nat → Nat} {p L : Nat}
    (hL : L < 65536) (hcap : p + strLenSize L ≤ cap)
    (hbytes : ∀ i, i < strLenSize L →
      buf (p + i) = (strLenBytes L).getD i 0) :
    read_str_len ⟨cap, buf, p⟩ = .ok L ⟨cap, buf, p + strLenSize L⟩ := by
  by_cases h32 : L < 32
  · have hsz : strLenSize L = 1 := by
      unfold strLenSize
      rw [if_pos h32]
    have hb0 : buf p = 0xa0 + L := by
      have h0 := hbytes 0 (by omega)
      rw [Nat.add_zero] at h0
      rw [h0]
      unfold strLenBytes
      rw [if_pos h32]
      rfl
    unfold read_str_len
    simp only [bind_is]
    rw [PM.bind_ok_step (readByte_ok_mk (by omega))]
    try dsimp only
    rw [hb0]
    rw [if_pos ⟨by omega, by omega⟩]
    rw [hsz, show 0xa0 + L - 0xa0 = L from by omega]
    rfl
  · by_cases h256 : L < 256
    · have hsz : strLenSize L = 2 := by
        unfold strLenSize
        rw [if_neg h32, if_pos h256]
      have hb0 : buf p = 0xd9 := by
        have h0 := hbytes 0 (by omega)
        rw [Nat.add_zero] at h0
        rw [h0]
        unfold strLenBytes
        rw [if_neg h32, if_pos h256]
        rfl
      have hb1 : buf (p + 1) = L := by
        have h1 := hbytes 1 (by omega)
        rw [h1]
        unfold strLenBytes
        rw [if_neg h32, if_pos h256]
        rfl
      unfold read_str_len
      simp only [bind_is]
      rw [PM.bind_ok_step (readByte_ok_mk (by omega))]
      try dsimp only
      rw [hb0]
      rw [if_neg (by decide), if_pos rfl]
      rw [readByte_ok_mk (by omega)]
      rw [hb1, hsz]
    · have h64 : ¬ L < 32 := h32
      have hsz : strLenSize L = 3 := by
        unfold strLenSize
        rw [if_neg h32, if_neg h256, if_pos hL]
      have hb0 : buf p = 0xda := by
        have h0 := hbytes 0 (by omega)
        rw [Nat.add_zero] at h0
        rw [h0]
        unfold strLenBytes
        rw [if_neg h32, if_neg h256, if_pos hL]
        rfl
      have hb1 : buf (p + 1) = L / 256 % 256 := by
        have h1 := hbytes 1 (by omega)
        rw [h1]
        unfold strLenBytes
        rw [if_neg h32, if_neg h256, if_pos hL]
        rfl
      have hb2 : buf (p + 2) = L % 256 := by
        have h2 := hbytes 2 (by omega)
        rw [h2]
        unfold strLenBytes
        rw [if_neg h32, if_neg h256, if_pos hL]
        rfl
      unfold read_str_len
      simp only [bind_is]
      rw [PM.bind_ok_step (readByte_ok_mk (by omega))]
      try dsimp only
      rw [hb0]
      rw [if_neg (by decide), if_neg (by decide), if_pos rfl]
      rw [PM.bind_ok_step (readByte_ok_mk (by omega))]
      try dsimp only
      rw [hb1]
      rw [show p + 1 + 1 = p + 2 from by omega]
      rw [PM.bind_ok_step (readByte_ok_mk (by omega))]
      try dsimp only
      rw [hb2]
      rw [show L / 256 % 256 * 256 + L % 256 = L from by omega]
      rw [hsz, show p + 2 + 1 = p + 3 from by omega]
      rfl

/-- Claim C9 — frame effect of `read_query`.  For every Parse payload
produced by `prepare_query`, reading the header back and then calling
`read_query` returns the query bytes with their byte length, leaves the
cursor just past the string-length prefix (at the first byte of the
string, since the look-ahead does not advance), and leaves the stream
contents unchanged. -/
theorem c9_read_query_frame (query : List Nat) (s0 s1 : SlotStream)
    (u : Unit) (h : prepare_query query s0 = .ok u s1) :
    ∃ s2 s3,
      consume_header { s1 with pos := 0 } =
        .ok ⟨.ToWorker, .Parse, .Last, (1 + 1 + query.length) % 65536⟩ s2 ∧
      read_query s2 = .ok (query, query.length) s3 ∧
      s3.buf = s2.buf ∧ s3.cap = s2.cap ∧
      s3.pos = 6 + strLenSize query.length ∧
      s3.pos + query.length = s1.pos := by
  cases u
  obtain ⟨cap0, buf0, pos0⟩ := s0
  have hpm : Header.payload_max_size = 8186 := rfl
  unfold prepare_query write_str at h
  simp only [bind_is, PM.bind_ok_iff] at h
  obtain ⟨_, sA, hra, h⟩ := h
  rw [reset_ok_iff] at hra
  subst hra
  by_cases hq : Header.payload_max_size < 1 + 1 + query.length
  · rw [if_pos hq] at h
    simp [throwE] at h
  · rw [if_neg hq] at h
    simp only [PM.bind_ok_iff] at h
    obtain ⟨_, sB, hwh, _, sC, hw1, hw2⟩ := h
    rw [write_header_ok_iff] at hwh
    obtain ⟨hcap6, rfl⟩ := hwh
    rw [write_bytes_ok_iff] at hw1
    obtain ⟨hcap1, rfl⟩ := hw1
    rw [write_bytes_ok_iff] at hw2
    obtain ⟨hcap2, hs1⟩ := hw2
    subst hs1
    dsimp only at hcap6 hcap1 hcap2 ⊢
    simp only [strLenBytes_length] at hcap1 hcap2 ⊢
    have hL : query.length < 65536 := by omega
    have hA := @consume_header_of_agree cap0
      (writeAt (writeAt (writeAt buf0 0
        (headerBytes ⟨.ToWorker, .Parse, .Last,
          (1 + 1 + query.length) % 65536⟩)) 6
        (strLenBytes query.length)) (6 + strLenSize query.length) query)
      ⟨.ToWorker, .Parse, .Last, (1 + 1 + query.length) % 65536⟩
      (Nat.mod_lt _ (by decide)) (by omega)
      (fun i hi => by
        rw [writeAt_lt (show i < 6 + strLenSize query.length from
          by omega)]
        rw [writeAt_lt hi]
        exact agree_of_writeAt_header i hi)
    have hB := @read_str_len_of_strLenBytes cap0
      (writeAt (writeAt (writeAt buf0 0
        (headerBytes ⟨.ToWorker, .Parse, .Last,
          (1 + 1 + query.length) % 65536⟩)) 6
        (strLenBytes query.length)) (6 + strLenSize query.length) query)
      6 query.length hL (by omega)
      (fun i hi => by
        rw [writeAt_lt (show 6 + i < 6 + strLenSize query.length from
          by omega)]
        rw [writeAt_getD (show 6 ≤ 6 + i from by omega)
          (show 6 + i < 6 + (strLenBytes query.length).length from
            by rw [strLenBytes_length]; omega)]
        rw [show 6 + i - 6 = i from by omega])
    have hla : look_ahead query.length
        ⟨cap0, writeAt (writeAt (writeAt buf0 0
          (headerBytes ⟨.ToWorker, .Parse, .Last,
            (1 + 1 + query.length) % 65536⟩)) 6
          (strLenBytes query.length)) (6 + strLenSize query.length) query,
         6 + strLenSize query.length⟩ =
        .ok query
          ⟨cap0, writeAt (writeAt (writeAt buf0 0
            (headerBytes ⟨.ToWorker, .Parse, .Last,
              (1 + 1 + query.length) % 65536⟩)) 6
            (strLenBytes query.length)) (6 + strLenSize query.length) query,
           6 + strLenSize query.length⟩ := by
      unfold look_ahead
      dsimp only
      rw [if_pos (by omega)]
      rw [bufSlice_writeAt]
    have hRQ : read_query
        ⟨cap0, writeAt (writeAt (writeAt buf0 0
          (headerBytes ⟨.ToWorker, .Parse, .Last,
            (1 + 1 + query.length) % 65536⟩)) 6
          (strLenBytes query.length)) (6 + strLenSize query.length) query,
         6⟩ =
        .ok (query, query.length)
          ⟨cap0, writeAt (writeAt (writeAt buf0 0
            (headerBytes ⟨.ToWorker, .Parse, .Last,
              (1 + 1 + query.length) % 65536⟩)) 6
            (strLenBytes query.length)) (6 + strLenSize query.length) query,
           6 + strLenSize query.length⟩ := by
      unfold read_query
      simp only [bind_is]
      rw [PM.bind_ok_step hB]
      rw [PM.bind_ok_step hla]
      rfl
    exact ⟨_, _, hA, hRQ, rfl, rfl, rfl, rfl⟩

/-- Witness for C9: the concrete query `SELECT 1` round-trips with the
cursor left at the first byte of the string. -/
theorem c9_read_query_frame_witness :
    ∃ s1, prepare_query [83, 69, 76, 69, 67, 84, 32, 49]
        (freshStream DATA_SIZE) = .ok () s1 ∧
      ∃ s2 s3,
        consume_header { s1 with pos := 0 } =
          .ok ⟨.ToWorker, .Parse, .Last,
            (1 + 1 + [83, 69, 76, 69, 67, 84, 32, 49].length) % 65536⟩ s2 ∧
        read_query s2 =
          .ok ([83, 69, 76, 69, 67, 84, 32, 49],
            [83, 69, 76, 69, 67, 84, 32, 49].length) s3 ∧
        s3.buf = s2.buf ∧ s3.cap = s2.cap ∧
        s3.pos = 6 + strLenSize [83, 69, 76, 69, 67, 84, 32, 49].length ∧
        s3.pos + [83, 69, 76, 69, 67, 84, 32, 49].length = s1.pos := by
  obtain ⟨s1, hs⟩ : ∃ s1, prepare_query [83, 69, 76, 69, 67, 84, 32, 49]
      (freshStream DATA_SIZE) = .ok () s1 := ⟨_, rfl⟩
  exact ⟨s1, hs, c9_read_query_frame [83, 69, 76, 69, 67, 84, 32, 49]
    (freshStream DATA_SIZE) s1 () hs⟩

end Protocol
